import Mathlib

set_option maxRecDepth 4000
set_option linter.deprecated false

/-!
Verification of the Benford-analysis program (src/benford_analysis.py)
against its natural-language specification.

The numeric domain: Python floats are modelled as exact rationals tagged
with the IEEE special values (`nan`, `inf`, `-inf`).  Every IEEE double is
a rational number, so theorems quantified over `ℚ` cover every value the
program can actually hold; rounding of individual arithmetic operations is
not modelled (no claim below depends on it).

`Int.log` and `zpow` are not evaluable by the kernel, so the definitions
use the structurally recursive equivalents `decExp` and `qpow10`, each
proved equal to the Mathlib notion it models.
-/

/-- Fuel-based base-10 `Nat.log` (the fuel makes it structurally
recursive, hence kernel-evaluable). -/
def natLog10 : ℕ → ℕ → ℕ
  | 0, _ => 0
  | fuel + 1, n => if 10 ≤ n then natLog10 fuel (n / 10) + 1 else 0

/-- Fuel-based base-10 `Nat.clog`. -/
def natClog10 : ℕ → ℕ → ℕ
  | 0, _ => 0
  | fuel + 1, n => if 2 ≤ n then natClog10 fuel ((n + 9) / 10) + 1 else 0

/-- The decimal exponent of a rational: `Int.log 10`, in a
kernel-evaluable form (shown equal to `Int.log 10` below). -/
def decExp (q : ℚ) : ℤ :=
  if 1 ≤ q then ((natLog10 ⌊q⌋₊ ⌊q⌋₊ : ℕ) : ℤ) else -((natClog10 ⌈q⁻¹⌉₊ ⌈q⁻¹⌉₊ : ℕ) : ℤ)

/-- Integer powers of ten as rationals, by explicit construction
(shown equal to `(10 : ℚ) ^ k` below). -/
def qpow10 : ℤ → ℚ
  | Int.ofNat n => mkRat ((10 : ℤ) ^ n) 1
  | Int.negSucc n => mkRat 1 (10 ^ (n + 1))

theorem natLog10_eq_log (fuel n : ℕ) (h : n ≤ fuel) : natLog10 fuel n = Nat.log 10 n := by
  induction fuel generalizing n with
  | zero =>
    interval_cases n
    simp [natLog10]
  | succ fuel ih =>
    by_cases h10 : 10 ≤ n
    · have hdiv : n / 10 ≤ fuel := by
        have : n / 10 < n := Nat.div_lt_self (by omega) (by norm_num)
        omega
      rw [natLog10, if_pos h10, ih _ hdiv, Nat.log_of_one_lt_of_le (by norm_num) h10]
    · rw [natLog10, if_neg h10, Nat.log_of_lt (by omega)]

theorem natClog10_eq_clog (fuel n : ℕ) (h : n ≤ fuel) : natClog10 fuel n = Nat.clog 10 n := by
  induction fuel generalizing n with
  | zero =>
    interval_cases n
    simp [natClog10]
  | succ fuel ih =>
    by_cases h2 : 2 ≤ n
    · have hdiv : (n + 9) / 10 ≤ fuel := by
        have : (n + 9) / 10 < n := by
          rw [Nat.div_lt_iff_lt_mul (by norm_num)]
          omega
        omega
      rw [natClog10, if_pos h2, ih _ hdiv, Nat.clog_of_two_le (by norm_num) h2]
      norm_num
    · rw [natClog10, if_neg h2, Nat.clog_of_right_le_one (by omega)]

theorem decExp_eq_log (q : ℚ) : decExp q = Int.log 10 q := by
  rw [decExp, Int.log]
  split
  · rw [natLog10_eq_log _ _ le_rfl]
  · rw [natClog10_eq_clog _ _ le_rfl]

theorem qpow10_eq_zpow (k : ℤ) : qpow10 k = (10 : ℚ) ^ k := by
  cases k with
  | ofNat n =>
    rw [qpow10, Rat.mkRat_eq_div]
    push_cast
    rw [div_one, Int.ofNat_eq_natCast, zpow_natCast]
  | negSucc n =>
    rw [qpow10, Rat.mkRat_eq_div, zpow_negSucc]
    push_cast
    rw [one_div]

/-- Model of a Python float value: a finite value (an exact rational) or
one of the IEEE special values. -/
inductive PyFloat where
  | finite (q : ℚ)
  | nan
  | inf
  | neginf
deriving DecidableEq

/-- Python truthiness test `value == 0` used by `_first_digit`
(`nan == 0` and `inf == 0` are `False` in Python). -/
def pyEqZero : PyFloat → Bool
  | PyFloat.finite q => q == 0
  | PyFloat.nan => false
  | PyFloat.inf => false
  | PyFloat.neginf => false

/-- Python `abs` on floats (`abs(nan) = nan`, `abs(-inf) = inf`). -/
def pyAbs : PyFloat → PyFloat
  | PyFloat.finite q => PyFloat.finite |q|
  | PyFloat.nan => PyFloat.nan
  | PyFloat.inf => PyFloat.inf
  | PyFloat.neginf => PyFloat.inf

/-- The character for decimal digit `d` (for `d ≤ 9`). -/
def digitChar (d : ℕ) : Char := Char.ofNat (48 + d)

/-- Render a digit list as characters. -/
def digitChars (ds : List ℕ) : List Char := ds.map digitChar

/-- Remove trailing zeros from a digit list (as `%g` formatting strips
trailing zeros of the fractional part). -/
def stripTrailing : List ℕ → List ℕ
  | [] => []
  | d :: rest =>
    match stripTrailing rest with
    | [] => if d = 0 then [] else [d]
    | r => d :: r

/-- The 12 decimal digits (most significant first) of a 12-digit mantissa
`m` with `10^11 ≤ m < 10^12`. -/
def digitsOfMantissa (m : ℕ) : List ℕ :=
  [m / 10 ^ 11 % 10, m / 10 ^ 10 % 10, m / 10 ^ 9 % 10, m / 10 ^ 8 % 10,
   m / 10 ^ 7 % 10, m / 10 ^ 6 % 10, m / 10 ^ 5 % 10, m / 10 ^ 4 % 10,
   m / 10 ^ 3 % 10, m / 10 ^ 2 % 10, m / 10 ^ 1 % 10, m / 10 ^ 0 % 10]

/-- The 12-significant-digit decimal mantissa and decimal exponent of a
positive rational, as computed by `%.12g` formatting: `e` is the decimal
exponent (`10^e ≤ q < 10^(e+1)`), the mantissa is `q` scaled to
`[10^11, 10^12)` and rounded; a carry out of rounding renormalises.
(The C library rounds ties to even; Mathlib's `round` rounds ties up.  No
claim depends on tie behaviour, and ties do not occur in any concrete
input below.) -/
def sigDigits (q : ℚ) : ℤ × ℤ :=
  let e := decExp q
  let m := round (q * qpow10 (11 - e))
  if m = 10 ^ 12 then ((10 : ℤ) ^ 11, e + 1) else (m, e)

/-- Digits of the exponent field of scientific notation, padded to at
least two digits as `%g` does (`1.23e-05`). -/
def expDigits (e : ℤ) : List ℕ :=
  let ds := (Nat.digits 10 e.natAbs).reverse
  if ds.length < 2 then 0 :: ds else ds

/-- The rendering half of `f"{q:.12g}"`, from the 12-digit mantissa `m`
and decimal exponent `e`: scientific notation when the decimal exponent
is below `-4` or at least the precision 12, fixed notation otherwise;
trailing fractional zeros stripped, decimal point dropped when no
fraction remains. -/
def render12g (m : ℕ) (e : ℤ) : List Char :=
  let ds := digitsOfMantissa m
  if e < -4 ∨ 12 ≤ e then
    let frac := stripTrailing ds.tail
    digitChars (ds.take 1)
      ++ (if frac = [] then [] else '.' :: digitChars frac)
      ++ 'e' :: (if e < 0 then '-' else '+') :: digitChars (expDigits e)
  else if 0 ≤ e then
    let frac := stripTrailing (ds.drop (e.toNat + 1))
    digitChars (ds.take (e.toNat + 1))
      ++ (if frac = [] then [] else '.' :: digitChars frac)
  else
    let frac := stripTrailing ds
    '0' :: '.' :: (List.replicate (e.neg.toNat - 1) '0' ++ digitChars frac)

/-- Model of `f"{q:.12g}"` for a positive rational `q`: extract the
12-significant-digit mantissa and decimal exponent, then render. -/
def format12g (q : ℚ) : List Char :=
  render12g (sigDigits q).1.toNat (sigDigits q).2

/-- Model of `f"{value:.12g}"` on the whole float domain
(`nan → "nan"`, `inf → "inf"`, `-inf → "-inf"`). -/
def format12gF : PyFloat → List Char
  | PyFloat.finite q => format12g q
  | PyFloat.nan => ['n', 'a', 'n']
  | PyFloat.inf => ['i', 'n', 'f']
  | PyFloat.neginf => ['-', 'i', 'n', 'f']

/-- Python `str.lstrip` with a single strip character. -/
def pyLstrip (cs : List Char) (strip : Char) : List Char :=
  cs.dropWhile (fun c => c = strip)

/-- The scanning loop of `_first_digit`: the first character that is a
digit other than `'0'`, converted with `int(char)`. -/
def scanDigits : List Char → Option ℕ
  | [] => none
  | c :: rest =>
    if c.isDigit ∧ c ≠ '0' then some (c.toNat - 48) else scanDigits rest

/-- `_first_digit` from src/benford_analysis.py: zero guard, absolute
value, `%.12g` rendering, strip leading zeros and the decimal point, scan
for the first non-`'0'` digit character. -/
def _first_digit (value : PyFloat) : Option ℕ :=
  if pyEqZero value then none
  else scanDigits (pyLstrip (pyLstrip (format12gF (pyAbs value)) '0') '.')

example : _first_digit (PyFloat.finite (123 / 1000000)) = some 1 := by
  with_unfolding_all decide
example : _first_digit (PyFloat.finite 123000) = some 1 := by
  with_unfolding_all decide
example : _first_digit (PyFloat.finite (-20)) = some 2 := by
  with_unfolding_all decide
example : _first_digit (PyFloat.finite 0) = none := by
  with_unfolding_all decide
example : _first_digit PyFloat.nan = none := by decide
example : _first_digit PyFloat.inf = none := by decide
example : _first_digit (PyFloat.finite (1 / 100000000)) = some 1 := by
  with_unfolding_all decide

/-!
## The Benford analyzer (`analyze_first_digits`)

The source computes `expected_pct` with `math.log10(1 + 1 / digit)` in
floating point.  A floating-point transcendental has no exact shallow
embedding, so the expected table enters as a parameter `expected_pct`;
every IEEE double is a rational, so quantifying over `ℕ → ℚ` covers the
table the program actually uses.  All other arithmetic follows the source
line by line.
-/

/-- The result structure `BenfordResult` from src/benford_analysis.py.
The digit-keyed dicts become functions on `ℕ` (keys 1–9). -/
structure BenfordResult where
  counts : ℕ → ℕ
  total : ℕ
  observed_pct : ℕ → ℚ
  expected_pct : ℕ → ℚ
  mad : ℚ
  chi_square : ℚ

/-- One iteration of the counting loop of `analyze_first_digits`:
skip when `_first_digit` returns `None`, otherwise increment
`counts[digit]` and `total`. -/
def countStep (acc : (ℕ → ℕ) × ℕ) (value : PyFloat) : (ℕ → ℕ) × ℕ :=
  match _first_digit value with
  | none => acc
  | some digit => (Function.update acc.1 digit (acc.1 digit + 1), acc.2 + 1)

/-- `analyze_first_digits` from src/benford_analysis.py, with the
expected table as a parameter (see section comment). -/
def analyze_first_digits (expected_pct : ℕ → ℚ) (values : List PyFloat) : BenfordResult :=
  let cs := values.foldl countStep (fun _ => 0, 0)
  let counts := cs.1
  let total := cs.2
  let observed_pct : ℕ → ℚ :=
    fun digit => if total ≠ 0 then (counts digit : ℚ) / (total : ℚ) else 0
  let mad := (∑ d in Finset.Icc 1 9, |observed_pct d - expected_pct d|) / 9
  let chi_square :=
    ∑ d in Finset.Icc 1 9,
      if (total : ℚ) * expected_pct d > 0 then
        ((counts d : ℚ) - (total : ℚ) * expected_pct d) ^ 2 / ((total : ℚ) * expected_pct d)
      else 0
  { counts := counts
    total := total
    observed_pct := observed_pct
    expected_pct := expected_pct
    mad := mad
    chi_square := chi_square }

/-!
## The spreadsheet extractor

The zip/XML reading itself is I/O; the embedding starts from the parsed
shape the code actually consumes: a worksheet is a list of rows, a row
carries its `r` attribute (absent modelled as `none`) and its cells, a
cell carries its `r` attribute (the code reads it with `.get("r", "")`,
so absent is the empty string), its optional `t` attribute and its
optional `<v>` node, whose text is itself optional (`<v/>` has no text).
The shared-string table is the string list `_load_shared_strings`
returns.  Python exceptions become `Except PyError`.
-/

/-- A worksheet cell as read by the code: `r` attribute (via
`.get("r", "")`), optional `t` attribute, optional value node with
optional text. -/
structure Cell where
  r : String
  t : Option String
  v : Option (Option String)
deriving DecidableEq

/-- A worksheet row: optional `r` attribute and its cells in document
order. -/
structure Row where
  r : Option String
  cells : List Cell
deriving DecidableEq

/-- A worksheet: the rows of `sheetData` in document order. -/
structure Worksheet where
  rows : List Row
deriving DecidableEq

/-- The Python exceptions the extractor can raise. -/
inductive PyError where
  | indexError
  | typeError
  | valueError (msg : String)
deriving DecidableEq

instance exceptDecEq {ε α : Type} [DecidableEq ε] [DecidableEq α] : DecidableEq (Except ε α) := fun
  | Except.error e, Except.error f =>
    if h : e = f then isTrue (by rw [h]) else isFalse fun c => h (by injection c)
  | Except.error _, Except.ok _ => isFalse fun c => Except.noConfusion c
  | Except.ok _, Except.error _ => isFalse fun c => Except.noConfusion c
  | Except.ok a, Except.ok b =>
    if h : a = b then isTrue (by rw [h]) else isFalse fun c => h (by injection c)

/-- Python list indexing `l[i]`: non-negative indices from the front,
negative indices count from the end, anything else raises `IndexError`
(modelled as `none`). -/
def pyListGet (l : List String) (i : ℤ) : Option String :=
  if 0 ≤ i then l.get? i.toNat
  else if -(l.length : ℤ) ≤ i then l.get? (l.length + i).toNat
  else none

/-- Digit accumulator for the integer literal forms accepted by
`int(text)` (sign and decimal digits; the whitespace and underscore
forms Python also accepts are irrelevant to every claim). -/
def digitsVal : List Char → Option ℕ
  | [] => none
  | l =>
    l.foldl
      (fun acc c => acc.bind fun n => if c.isDigit then some (10 * n + (c.toNat - 48)) else none)
      (some 0)

/-- Model of Python `int(text)` on sign-and-digits literals. -/
def pyIntParse (s : String) : Option ℤ :=
  match s.data with
  | '-' :: rest => (digitsVal rest).map fun n => -(n : ℤ)
  | '+' :: rest => (digitsVal rest).map fun n => (n : ℤ)
  | l => (digitsVal l).map fun n => (n : ℤ)

/-- `_cell_value` from src/benford_analysis.py: `None` when the cell has
no value node; shared-string cells (`t="s"`) parse the text as an index
into the table (Python list indexing); otherwise the raw value text. -/
def _cell_value (cell : Cell) (strings : List String) : Except PyError (Option String) :=
  match cell.v with
  | none => Except.ok none
  | some text =>
    if cell.t = some ("s") then
      match text with
      | none => Except.error PyError.typeError
      | some s =>
        match pyIntParse s with
        | none => Except.error (PyError.valueError (("invalid literal for int() with base 10: ") ++ s))
        | some i =>
          match pyListGet strings i with
          | none => Except.error PyError.indexError
          | some str => Except.ok (some str)
    else Except.ok text

/-- The column identifier of a cell reference:
`"".join(ch for ch in cell_ref if ch.isalpha())` (references here are
ASCII, where Lean's `Char.isAlpha` and Python's `str.isalpha` agree). -/
def stripNonAlpha (s : String) : String :=
  String.mk (s.data.filter Char.isAlpha)

/-- Python dict assignment `d[k] = v` on an insertion-ordered
association list: overwrite in place if the key exists, else append. -/
def dictSet (m : List (String × String)) (k v : String) : List (String × String) :=
  if m.any (fun p => p.1 = k) then m.map (fun p => if p.1 = k then (k, v) else p)
  else m ++ [(k, v)]

/-- `value_node.text or ""` — the header text of a non-shared cell. -/
def pyOrEmpty : Option String → String
  | none => ""
  | some s => s

/-- The loop body of `_column_headers`: cells with no value node are
skipped (`continue`); shared-string cells resolve through the table;
other cells record their raw text. -/
def headerStep (strings : List String) (headers : List (String × String)) (cell : Cell) :
    Except PyError (List (String × String)) :=
  let col := stripNonAlpha cell.r
  match cell.v with
  | none => Except.ok headers
  | some text =>
    if cell.t = some ("s") then
      match text with
      | none => Except.error PyError.typeError
      | some s =>
        match pyIntParse s with
        | none => Except.error (PyError.valueError (("invalid literal for int() with base 10: ") ++ s))
        | some i =>
          match pyListGet strings i with
          | none => Except.error PyError.indexError
          | some str => Except.ok (dictSet headers col str)
    else Except.ok (dictSet headers col (pyOrEmpty text))

/-- `_column_headers` from src/benford_analysis.py: empty map when the
sheet has no first row, otherwise fold `headerStep` over the first row's
cells. -/
def _column_headers (sheet : Worksheet) (strings : List String) :
    Except PyError (List (String × String)) :=
  match sheet.rows with
  | [] => Except.ok []
  | row1 :: _ => row1.cells.foldlM (headerStep strings) []

/-- Python `str(x)` on an optional attribute (`str(None) = "None"`),
as the f-string `f"{column}{row.attrib.get('r')}"` renders it. -/
def pyStr : Option String → String
  | none => "None"
  | some s => s

/-- Lookup in the row's `{cell.attrib.get("r", ""): cell}` dict
comprehension: the last cell with a matching reference wins. -/
def cellsLookup (cells : List Cell) (key : String) : Option Cell :=
  (cells.filter (fun c => c.r = key)).getLast?

/-- Python truthiness of an optional string (`if column_for_abs:`):
`None` and the empty string are falsy. -/
def optTruthy : Option String → Bool
  | none => false
  | some s => !s.isEmpty

/-- Accumulate decimal digits of a mantissa chunk for `float(text)`. -/
def natOfDigits (l : List Char) : ℕ :=
  l.foldl (fun a c => 10 * a + (c.toNat - 48)) 0

/-- Model of Python `float(text)` on decimal literals
`[sign] digits [. digits] [(e|E) [sign] digits]` (with at least one
mantissa digit), producing the exact rational value.  The `inf`/`nan`
word forms and underscores, and the final binary rounding to a double,
are not modelled: no claim depends on them. -/
def pyFloatParseCore (l : List Char) : Option ℚ :=
  let mant := l.takeWhile (fun c => c ≠ 'e' ∧ c ≠ 'E')
  let expPart := l.dropWhile (fun c => c ≠ 'e' ∧ c ≠ 'E')
  let ip := mant.takeWhile (fun c => c ≠ '.')
  let fpDot := mant.dropWhile (fun c => c ≠ '.')
  let fp := fpDot.drop 1
  let expVal : Option ℤ :=
    match expPart with
    | [] => some 0
    | _ :: ('-' :: ds) => if ds ≠ [] ∧ ds.all Char.isDigit then some (-(natOfDigits ds : ℤ)) else none
    | _ :: ('+' :: ds) => if ds ≠ [] ∧ ds.all Char.isDigit then some ((natOfDigits ds : ℤ)) else none
    | _ :: ds => if ds ≠ [] ∧ ds.all Char.isDigit then some ((natOfDigits ds : ℤ)) else none
  if (ip ++ fp).all Char.isDigit ∧ ip ++ fp ≠ [] ∧ ¬fp.contains '.' then
    expVal.map fun x => mkRat (natOfDigits (ip ++ fp)) (10 ^ fp.length) * qpow10 x
  else none

/-- Model of Python `float(text)`: optional sign, then `pyFloatParseCore`. -/
def pyFloatParse (s : String) : Option ℚ :=
  match s.data with
  | '-' :: rest => (pyFloatParseCore rest).map Neg.neg
  | '+' :: rest => pyFloatParseCore rest
  | l => pyFloatParseCore l

/-- One column attempt of the row loop of `_read_amounts`: look the
cell up under `f"{column}{row_ref}"`, resolve its value, and parse it
as a float unless it is `None` or empty. -/
def tryColumn (strings : List String) (row : Row) (col : String) : Except PyError (Option ℚ) :=
  match cellsLookup row.cells (col ++ pyStr row.r) with
  | none => Except.ok none
  | some cell =>
    match _cell_value cell strings with
    | Except.error e => Except.error e
    | Except.ok none => Except.ok none
    | Except.ok (some s) =>
      if s = "" then Except.ok none
      else
        match pyFloatParse s with
        | none => Except.error (PyError.valueError (("could not convert string to float: ") ++ s))
        | some q => Except.ok (some q)

/-- A guarded column attempt: the source tests the column id for
truthiness (`if column_for_abs:`) before looking at the row. -/
def attemptColumn (strings : List String) (row : Row) (c : Option String) :
    Except PyError (Option ℚ) :=
  if optTruthy c then tryColumn strings row (c.getD "") else Except.ok none

/-- The per-row amount of `_read_amounts`: try the "AbsoluteAmount"
column, then (only when that produced nothing) the "Amount" column. -/
def rowAmount (strings : List String) (cols : Option String × Option String) (row : Row) :
    Except PyError (Option ℚ) :=
  match attemptColumn strings row cols.1 with
  | Except.error e => Except.error e
  | Except.ok (some q) => Except.ok (some q)
  | Except.ok none => attemptColumn strings row cols.2

/-- The tail of the row loop of `_read_amounts`: rows with no amount and
rows whose amount is exactly zero contribute nothing; every other
amount is appended. -/
def appendAmount (values : List ℚ) : Option ℚ → List ℚ
  | none => values
  | some q => if q = 0 then values else values ++ [q]

/-- One full iteration of the row loop of `_read_amounts`. -/
def readRowStep (strings : List String) (cols : Option String × Option String)
    (values : List ℚ) (row : Row) : Except PyError (List ℚ) :=
  match rowAmount strings cols row with
  | Except.error e => Except.error e
  | Except.ok a => Except.ok (appendAmount values a)

/-- One iteration of the header scan of `_read_amounts`. -/
def amountColStep (acc : Option String × Option String) (p : String × String) :
    Option String × Option String :=
  if p.2 = ("AbsoluteAmount") then (some p.1, acc.2)
  else if p.2 = ("Amount") then (acc.1, some p.1)
  else acc

/-- The header scan of `_read_amounts`: the last column whose header is
"AbsoluteAmount" and the last column whose header is "Amount". -/
def findAmountColumns (headers : List (String × String)) : Option String × Option String :=
  headers.foldl amountColStep (none, none)

/-- `_read_amounts` from src/benford_analysis.py, starting from the
parsed worksheet and shared-string table (the zip and XML reading is
I/O outside the embedding): resolve headers, locate the amount columns,
raise when neither is present, then fold the row loop over the rows
after the first. -/
def _read_amounts (strings : List String) (sheet : Worksheet) : Except PyError (List ℚ) :=
  match _column_headers sheet strings with
  | Except.error e => Except.error e
  | Except.ok headers =>
    if (findAmountColumns headers).1 = none ∧ (findAmountColumns headers).2 = none then
      Except.error (PyError.valueError ("No amount column found in spreadsheet"))
    else
      (sheet.rows.drop 1).foldlM (readRowStep strings (findAmountColumns headers)) []

/-!
## Lemmas about the `_first_digit` rendering pipeline
-/

theorem digitChar_isDigit (d : ℕ) (h9 : d ≤ 9) : (digitChar d).isDigit = true := by
  interval_cases d <;> decide

theorem digitChar_ne_zero (d : ℕ) (h1 : 1 ≤ d) (h9 : d ≤ 9) : digitChar d ≠ '0' := by
  interval_cases d <;> decide

theorem digitChar_ne_dot (d : ℕ) (h9 : d ≤ 9) : digitChar d ≠ '.' := by
  interval_cases d <;> decide

theorem digitChar_toNat (d : ℕ) (h9 : d ≤ 9) : (digitChar d).toNat - 48 = d := by
  interval_cases d <;> decide

theorem scan_cons_of_digit (c : Char) (hc : c.isDigit = true) (h0 : c ≠ '0') (l : List Char) :
    scanDigits (c :: l) = some (c.toNat - 48) := by
  rw [scanDigits, if_pos ⟨hc, h0⟩]

theorem scan_cons_digitChar (d : ℕ) (h1 : 1 ≤ d) (h9 : d ≤ 9) (l : List Char) :
    scanDigits (digitChar d :: l) = some d := by
  rw [scan_cons_of_digit _ (digitChar_isDigit d h9) (digitChar_ne_zero d h1 h9) l,
    digitChar_toNat d h9]

theorem scan_cons_zero (l : List Char) : scanDigits ('0' :: l) = scanDigits l := by
  rw [scanDigits, if_neg (by simp)]

theorem scanDigits_replicate (z : ℕ) (l : List Char) :
    scanDigits (List.replicate z '0' ++ l) = scanDigits l := by
  induction z with
  | zero => rfl
  | succ z ih => rw [List.replicate_succ, List.cons_append, scan_cons_zero, ih]

theorem pyLstrip_cons_ne (c strip : Char) (h : c ≠ strip) (l : List Char) :
    pyLstrip (c :: l) strip = c :: l := by
  simp [pyLstrip, List.dropWhile_cons, h]

theorem pyLstrip_cons_eq (strip : Char) (l : List Char) :
    pyLstrip (strip :: l) strip = pyLstrip l strip := by
  simp [pyLstrip, List.dropWhile_cons]

theorem stripTrailing_cons_ne (d : ℕ) (hd : d ≠ 0) (rest : List ℕ) :
    stripTrailing (d :: rest) = d :: stripTrailing rest := by
  rw [stripTrailing]
  cases h : stripTrailing rest with
  | nil => simp [hd]
  | cons a t => rfl

theorem digitsOfMantissa_cons (m : ℕ) :
    digitsOfMantissa m = m / 10 ^ 11 % 10 ::
      [m / 10 ^ 10 % 10, m / 10 ^ 9 % 10, m / 10 ^ 8 % 10, m / 10 ^ 7 % 10, m / 10 ^ 6 % 10,
       m / 10 ^ 5 % 10, m / 10 ^ 4 % 10, m / 10 ^ 3 % 10, m / 10 ^ 2 % 10, m / 10 ^ 1 % 10,
       m / 10 ^ 0 % 10] := rfl

theorem sigDigits_eq (q : ℚ) :
    sigDigits q =
      if round (q * (10 : ℚ) ^ ((11 : ℤ) - Int.log 10 q)) = 10 ^ 12 then
        ((10 : ℤ) ^ 11, Int.log 10 q + 1)
      else (round (q * (10 : ℚ) ^ ((11 : ℤ) - Int.log 10 q)), Int.log 10 q) := by
  simp only [sigDigits, decExp_eq_log, qpow10_eq_zpow]

theorem ten_zpow_pos (k : ℤ) : (0 : ℚ) < (10 : ℚ) ^ k := by positivity

theorem log_bounds (q : ℚ) (hq : 0 < q) :
    (10 : ℚ) ^ (Int.log 10 q) ≤ q ∧ q < (10 : ℚ) ^ (Int.log 10 q + 1) := by
  constructor
  · have h := Int.zpow_log_le_self (b := 10) (by norm_num) hq
    exact_mod_cast h
  · have h := Int.lt_zpow_succ_log_self (b := 10) (by norm_num) q
    exact_mod_cast h

theorem log_mul_zpow (q : ℚ) (hq : 0 < q) (k : ℤ) :
    Int.log 10 (q * (10 : ℚ) ^ k) = Int.log 10 q + k := by
  have hqk : 0 < q * (10 : ℚ) ^ k := mul_pos hq (ten_zpow_pos k)
  obtain ⟨hlo, hhi⟩ := log_bounds q hq
  apply le_antisymm
  · have hub : q * (10 : ℚ) ^ k < (10 : ℚ) ^ (Int.log 10 q + k + 1) := by
      calc q * (10 : ℚ) ^ k < (10 : ℚ) ^ (Int.log 10 q + 1) * (10 : ℚ) ^ k :=
            (mul_lt_mul_right (ten_zpow_pos k)).mpr hhi
        _ = (10 : ℚ) ^ (Int.log 10 q + k + 1) := by
            rw [← zpow_add₀ (by norm_num : (10 : ℚ) ≠ 0)]
            ring_nf
    have h := (Int.lt_zpow_iff_log_lt (b := 10) (by norm_num) hqk).mp (by exact_mod_cast hub)
    omega
  · have hlb : (10 : ℚ) ^ (Int.log 10 q + k) ≤ q * (10 : ℚ) ^ k := by
      calc (10 : ℚ) ^ (Int.log 10 q + k) = (10 : ℚ) ^ (Int.log 10 q) * (10 : ℚ) ^ k := by
            rw [← zpow_add₀ (by norm_num : (10 : ℚ) ≠ 0)]
        _ ≤ q * (10 : ℚ) ^ k := (mul_le_mul_right (ten_zpow_pos k)).mpr hlo
    exact (Int.zpow_le_iff_le_log (b := 10) (by norm_num) hqk).mp (by exact_mod_cast hlb)

theorem mantissa_arg_bounds (q : ℚ) (hq : 0 < q) :
    (10 : ℚ) ^ (11 : ℤ) ≤ q * (10 : ℚ) ^ ((11 : ℤ) - Int.log 10 q) ∧
    q * (10 : ℚ) ^ ((11 : ℤ) - Int.log 10 q) < (10 : ℚ) ^ (12 : ℤ) := by
  obtain ⟨hlo, hhi⟩ := log_bounds q hq
  constructor
  · calc (10 : ℚ) ^ (11 : ℤ)
        = (10 : ℚ) ^ (Int.log 10 q) * (10 : ℚ) ^ ((11 : ℤ) - Int.log 10 q) := by
          rw [← zpow_add₀ (by norm_num : (10 : ℚ) ≠ 0)]
          ring_nf
      _ ≤ q * (10 : ℚ) ^ ((11 : ℤ) - Int.log 10 q) :=
          (mul_le_mul_right (ten_zpow_pos _)).mpr hlo
  · calc q * (10 : ℚ) ^ ((11 : ℤ) - Int.log 10 q)
        < (10 : ℚ) ^ (Int.log 10 q + 1) * (10 : ℚ) ^ ((11 : ℤ) - Int.log 10 q) :=
          (mul_lt_mul_right (ten_zpow_pos _)).mpr hhi
      _ = (10 : ℚ) ^ (12 : ℤ) := by
          rw [← zpow_add₀ (by norm_num : (10 : ℚ) ≠ 0)]
          ring_nf

theorem round_mantissa_bounds (x : ℚ) (h1 : (10 : ℚ) ^ (11 : ℤ) ≤ x) (h2 : x < (10 : ℚ) ^ (12 : ℤ)) :
    (10 : ℤ) ^ 11 ≤ round x ∧ round x ≤ 10 ^ 12 := by
  have e11 : ((10 : ℚ) ^ (11 : ℤ)) = ((10 ^ 11 : ℤ) : ℚ) := by norm_num
  have e12 : ((10 : ℚ) ^ (12 : ℤ)) = ((10 ^ 12 : ℤ) : ℚ) := by norm_num
  rw [round_eq]
  constructor
  · rw [Int.le_floor]
    push_cast
    rw [e11] at h1
    push_cast at h1
    linarith
  · have : ⌊x + 1 / 2⌋ < 10 ^ 12 + 1 := by
      rw [Int.floor_lt]
      push_cast
      rw [e12] at h2
      push_cast at h2
      linarith
    omega

theorem sigDigits_bounds (q : ℚ) (hq : 0 < q) :
    (10 : ℤ) ^ 11 ≤ (sigDigits q).1 ∧ (sigDigits q).1 < 10 ^ 12 := by
  obtain ⟨h1, h2⟩ := mantissa_arg_bounds q hq
  obtain ⟨hm1, hm2⟩ := round_mantissa_bounds _ h1 h2
  rw [sigDigits_eq]
  split
  · constructor
    · norm_num
    · norm_num
  · refine ⟨hm1, ?_⟩
    rename_i hne
    omega

theorem sigDigits_mul_zpow (q : ℚ) (hq : 0 < q) (k : ℤ) :
    sigDigits (q * (10 : ℚ) ^ k) = ((sigDigits q).1, (sigDigits q).2 + k) := by
  have harg : q * (10 : ℚ) ^ k * (10 : ℚ) ^ ((11 : ℤ) - Int.log 10 (q * (10 : ℚ) ^ k)) =
      q * (10 : ℚ) ^ ((11 : ℤ) - Int.log 10 q) := by
    rw [log_mul_zpow q hq k, mul_assoc, ← zpow_add₀ (by norm_num : (10 : ℚ) ≠ 0)]
    congr 1
    ring_nf
  rw [sigDigits_eq, sigDigits_eq, harg, log_mul_zpow q hq k]
  split
  · rw [Prod.mk.injEq]
    exact ⟨rfl, by ring⟩
  · rfl

theorem digitChars_cons (d : ℕ) (l : List ℕ) :
    digitChars (d :: l) = digitChar d :: digitChars l := rfl

theorem scan_render (m : ℕ) (e : ℤ) (hmlo : 10 ^ 11 ≤ m) (hmhi : m < 10 ^ 12) :
    scanDigits (pyLstrip (pyLstrip (render12g m e) '0') '.') = some (m / 10 ^ 11) := by
  have hd0lo : 1 ≤ m / 10 ^ 11 := (Nat.one_le_div_iff (by norm_num)).mpr hmlo
  have hd0hi : m / 10 ^ 11 ≤ 9 := by
    have h : m / 10 ^ 11 < 10 := Nat.div_lt_of_lt_mul (by omega)
    omega
  have hmod : m / 10 ^ 11 % 10 = m / 10 ^ 11 := Nat.mod_eq_of_lt (by omega)
  simp only [render12g]
  by_cases hsci : e < -4 ∨ 12 ≤ e
  · rw [if_pos hsci]
    have ht : (digitsOfMantissa m).take 1 = [m / 10 ^ 11 % 10] := rfl
    rw [ht, hmod]
    show scanDigits (pyLstrip (pyLstrip (digitChar (m / 10 ^ 11) :: _) '0') '.') = _
    rw [pyLstrip_cons_ne _ _ (digitChar_ne_zero _ hd0lo hd0hi),
      pyLstrip_cons_ne _ _ (digitChar_ne_dot _ hd0hi),
      scan_cons_digitChar _ hd0lo hd0hi]
  · rw [if_neg hsci]
    by_cases hfix : 0 ≤ e
    · rw [if_pos hfix]
      have ht : (digitsOfMantissa m).take (e.toNat + 1) =
          m / 10 ^ 11 % 10 :: ((digitsOfMantissa m).tail.take e.toNat) := by
        rw [digitsOfMantissa_cons, List.take_succ_cons]
        rfl
      rw [ht, hmod, digitChars_cons]
      show scanDigits (pyLstrip (pyLstrip (digitChar (m / 10 ^ 11) :: _) '0') '.') = _
      rw [pyLstrip_cons_ne _ _ (digitChar_ne_zero _ hd0lo hd0hi),
        pyLstrip_cons_ne _ _ (digitChar_ne_dot _ hd0hi),
        scan_cons_digitChar _ hd0lo hd0hi]
    · rw [if_neg hfix]
      have hd0ne : m / 10 ^ 11 % 10 ≠ 0 := by omega
      have hst : stripTrailing (digitsOfMantissa m) =
          m / 10 ^ 11 % 10 :: stripTrailing
            [m / 10 ^ 10 % 10, m / 10 ^ 9 % 10, m / 10 ^ 8 % 10, m / 10 ^ 7 % 10,
             m / 10 ^ 6 % 10, m / 10 ^ 5 % 10, m / 10 ^ 4 % 10, m / 10 ^ 3 % 10,
             m / 10 ^ 2 % 10, m / 10 ^ 1 % 10, m / 10 ^ 0 % 10] := by
        rw [digitsOfMantissa_cons, stripTrailing_cons_ne _ hd0ne]
      rw [hst, hmod, digitChars_cons]
      rw [pyLstrip_cons_eq, pyLstrip_cons_ne _ _ (by decide : '.' ≠ '0'),
        pyLstrip_cons_eq]
      cases hz : e.neg.toNat - 1 with
      | zero =>
        rw [List.replicate_zero, List.nil_append,
          pyLstrip_cons_ne _ _ (digitChar_ne_dot _ hd0hi),
          scan_cons_digitChar _ hd0lo hd0hi]
      | succ w =>
        rw [List.replicate_succ, List.cons_append,
          pyLstrip_cons_ne _ _ (by decide : '0' ≠ '.'),
          scan_cons_zero, scanDigits_replicate,
          scan_cons_digitChar _ hd0lo hd0hi]

/-- The most significant digit of the 12-digit mantissa of `q`. -/
def msd (q : ℚ) : ℕ := (sigDigits q).1.toNat / 10 ^ 11

theorem msd_bounds (q : ℚ) (hq : 0 < q) : 1 ≤ msd q ∧ msd q ≤ 9 := by
  obtain ⟨hlo, hhi⟩ := sigDigits_bounds q hq
  have hmlo : 10 ^ 11 ≤ (sigDigits q).1.toNat := by omega
  have hmhi : (sigDigits q).1.toNat < 10 ^ 12 := by omega
  have h1 : 1 ≤ (sigDigits q).1.toNat / 10 ^ 11 := (Nat.one_le_div_iff (by norm_num)).mpr hmlo
  have h2 : (sigDigits q).1.toNat / 10 ^ 11 < 10 := Nat.div_lt_of_lt_mul (by omega)
  rw [msd]
  omega

theorem first_digit_finite (q : ℚ) (hq : q ≠ 0) :
    _first_digit (PyFloat.finite q) = some (msd |q|) := by
  have habs : 0 < |q| := abs_pos.mpr hq
  obtain ⟨hlo, hhi⟩ := sigDigits_bounds |q| habs
  have hz : pyEqZero (PyFloat.finite q) = false := by
    simp [pyEqZero, hq]
  rw [_first_digit, hz]
  show scanDigits (pyLstrip (pyLstrip (format12g |q|) '0') '.') = _
  rw [format12g, scan_render _ _ (by omega) (by omega)]
  rfl

/-- C10 helper: every defined first digit lies in 1..9. -/
theorem first_digit_range (v : PyFloat) (d : ℕ) (h : _first_digit v = some d) :
    1 ≤ d ∧ d ≤ 9 := by
  cases v with
  | finite q =>
    by_cases hq : q = 0
    · subst hq
      rw [show _first_digit (PyFloat.finite 0) = none from by with_unfolding_all decide] at h
      cases h
    · rw [first_digit_finite q hq] at h
      obtain ⟨h1, h2⟩ := msd_bounds |q| (abs_pos.mpr hq)
      cases h
      exact ⟨h1, h2⟩
  | nan =>
    rw [show _first_digit PyFloat.nan = none from by decide] at h
    cases h
  | inf =>
    rw [show _first_digit PyFloat.inf = none from by decide] at h
    cases h
  | neginf =>
    rw [show _first_digit PyFloat.neginf = none from by decide] at h
    cases h

/-- C2: for every non-zero finite value `q` (floats are exact rationals
here) and every integer `k`, `_first_digit` is scale invariant
(`first_digit(q) = first_digit(q * 10^k)`) and returns a digit in 1..9;
in particular `first_digit(0.000123) = 1` and `first_digit(123000) = 1`. -/
theorem first_digit_scale_invariant :
    (∀ (q : ℚ), q ≠ 0 → ∀ (k : ℤ),
      _first_digit (PyFloat.finite q) = _first_digit (PyFloat.finite (q * (10 : ℚ) ^ k)) ∧
      ∃ d, _first_digit (PyFloat.finite q) = some d ∧ 1 ≤ d ∧ d ≤ 9) ∧
    _first_digit (PyFloat.finite (123 / 1000000)) = some 1 ∧
    _first_digit (PyFloat.finite 123000) = some 1 := by
  refine ⟨fun q hq k => ?_, by with_unfolding_all decide, by with_unfolding_all decide⟩
  have hk0 : ((10 : ℚ) ^ k) ≠ 0 := ne_of_gt (ten_zpow_pos k)
  have hq10 : q * (10 : ℚ) ^ k ≠ 0 := mul_ne_zero hq hk0
  have habs : |q * (10 : ℚ) ^ k| = |q| * (10 : ℚ) ^ k := by
    rw [abs_mul, abs_of_pos (ten_zpow_pos k)]
  constructor
  · rw [first_digit_finite q hq, first_digit_finite _ hq10, habs]
    rw [msd, msd, sigDigits_mul_zpow |q| (abs_pos.mpr hq) k]
  · obtain ⟨h1, h2⟩ := msd_bounds |q| (abs_pos.mpr hq)
    exact ⟨msd |q|, first_digit_finite q hq, h1, h2⟩

/-- Witness for C2 at `q = 3`, `k = 2`. -/
theorem first_digit_scale_invariant_witness :
    _first_digit (PyFloat.finite 3) = _first_digit (PyFloat.finite (3 * (10 : ℚ) ^ (2 : ℤ))) :=
  (first_digit_scale_invariant.1 3 (by norm_num) 2).1

/-- C10: `_first_digit` is total over the whole float domain and never
raises: every input yields either a digit in 1..9 or `None`; the
non-finite inputs `nan`, `inf` and `-inf` yield `None`, the same as
zero. -/
theorem first_digit_total_safety :
    (∀ v : PyFloat, _first_digit v = none ∨ ∃ d, _first_digit v = some d ∧ 1 ≤ d ∧ d ≤ 9) ∧
    _first_digit PyFloat.nan = none ∧
    _first_digit PyFloat.inf = none ∧
    _first_digit PyFloat.neginf = none ∧
    _first_digit (PyFloat.finite 0) = none := by
  refine ⟨fun v => ?_, by decide, by decide, by decide, by with_unfolding_all decide⟩
  cases h : _first_digit v with
  | none => exact Or.inl rfl
  | some d => exact Or.inr ⟨d, rfl, first_digit_range v d h⟩

/-!
## Lemmas about `analyze_first_digits`
-/

/-- `countStep` when the value has no defined leading digit. -/
theorem countStep_none (acc : (ℕ → ℕ) × ℕ) (v : PyFloat) (h : _first_digit v = none) :
    countStep acc v = acc := by
  rw [countStep, h]

/-- `countStep` when the value has leading digit `d`. -/
theorem countStep_some (acc : (ℕ → ℕ) × ℕ) (v : PyFloat) (d : ℕ)
    (h : _first_digit v = some d) :
    countStep acc v = (Function.update acc.1 d (acc.1 d + 1), acc.2 + 1) := by
  rw [countStep, h]

/-- Closed form of the counting loop: starting from `(f, t)`, the final
counts add the digit multiplicities of `values.filterMap _first_digit`
and the final total adds its length. -/
theorem foldl_countStep (values : List PyFloat) (f : ℕ → ℕ) (t : ℕ) :
    values.foldl countStep (f, t) =
      (fun d => f d + (values.filterMap _first_digit).count d,
       t + (values.filterMap _first_digit).length) := by
  induction values generalizing f t with
  | nil =>
    refine Prod.ext (funext fun d => ?_) ?_ <;> simp
  | cons v vs ih =>
    rw [List.foldl_cons]
    cases h : _first_digit v with
    | none =>
      rw [countStep_none _ _ h, ih]
      simp only [List.filterMap_cons, h]
    | some d0 =>
      rw [countStep_some _ _ _ h, ih]
      simp only [List.filterMap_cons, h]
      refine Prod.ext (funext fun d => ?_) ?_
      · by_cases hd : d = d0
        · subst hd
          simp [Function.update_same, List.count_cons_self]
          omega
        · simp [Function.update_noteq hd, List.count_cons_of_ne hd]
      · simp
        omega

theorem sum_count_eq_length (l : List ℕ) (h : ∀ x ∈ l, x ∈ Finset.Icc 1 9) :
    (∑ d in Finset.Icc 1 9, l.count d) = l.length := by
  induction l with
  | nil => simp
  | cons a t ih =>
    have ha : a ∈ Finset.Icc 1 9 := h a (by simp)
    have ht : ∀ x ∈ t, x ∈ Finset.Icc 1 9 := fun x hx => h x (by simp [hx])
    simp only [List.count_cons, List.length_cons, beq_iff_eq]
    rw [Finset.sum_add_distrib, ih ht, Finset.sum_ite_eq (Finset.Icc 1 9) a (fun _ => 1)]
    simp [ha]

theorem length_filterMap_eq_filter (l : List PyFloat) :
    (l.filterMap _first_digit).length = (l.filter (fun v => (_first_digit v).isSome)).length := by
  induction l with
  | nil => rfl
  | cons v t ih =>
    cases h : _first_digit v <;> simp [List.filterMap_cons, List.filter_cons, h, ih]

/-- `analyze_first_digits` in closed form over the defined-digit list. -/
theorem analyze_first_digits_closed (expected_pct : ℕ → ℚ) (values : List PyFloat) :
    analyze_first_digits expected_pct values =
      { counts := fun d => (values.filterMap _first_digit).count d
        total := (values.filterMap _first_digit).length
        observed_pct := fun d =>
          if (values.filterMap _first_digit).length ≠ 0 then
            ((values.filterMap _first_digit).count d : ℚ) /
              ((values.filterMap _first_digit).length : ℚ)
          else 0
        expected_pct := expected_pct
        mad := (∑ d in Finset.Icc 1 9,
          |(if (values.filterMap _first_digit).length ≠ 0 then
              ((values.filterMap _first_digit).count d : ℚ) /
                ((values.filterMap _first_digit).length : ℚ)
            else 0) - expected_pct d|) / 9
        chi_square := ∑ d in Finset.Icc 1 9,
          if ((values.filterMap _first_digit).length : ℚ) * expected_pct d > 0 then
            (((values.filterMap _first_digit).count d : ℚ) -
                ((values.filterMap _first_digit).length : ℚ) * expected_pct d) ^ 2 /
              (((values.filterMap _first_digit).length : ℚ) * expected_pct d)
          else 0 } := by
  simp only [analyze_first_digits, foldl_countStep, Nat.zero_add, zero_add]

/-- C3: for every expected table and input sequence, the digit counts of
the analysis result sum to `total`, `total` is at most the input length,
and `total` counts exactly the inputs with a defined leading digit
(zeros and non-finite values are excluded from counts and total). -/
theorem analyze_counts_sum_total (expected_pct : ℕ → ℚ) (values : List PyFloat) :
    (∑ d in Finset.Icc 1 9, (analyze_first_digits expected_pct values).counts d) =
      (analyze_first_digits expected_pct values).total ∧
    (analyze_first_digits expected_pct values).total ≤ values.length ∧
    (analyze_first_digits expected_pct values).total =
      (values.filter (fun v => (_first_digit v).isSome)).length := by
  rw [analyze_first_digits_closed]
  refine ⟨?_, ?_, ?_⟩
  · exact sum_count_eq_length _ fun x hx => by
      obtain ⟨v, _, hv⟩ := List.mem_filterMap.mp hx
      have := first_digit_range v x hv
      simp [Finset.mem_Icc]
      omega
  · exact List.length_filterMap_le _ _
  · exact length_filterMap_eq_filter values

/-- C4: whenever no input value has a defined leading digit (in
particular for the empty input), the result has `total = 0`, every
`observed_pct` percentage `0`, `chi_square = 0` (the zero-total guard
excludes every term, so no division by zero occurs), and `mad` equal to
the average of the expected percentages. -/
theorem analyze_empty_input (expected_pct : ℕ → ℚ) (values : List PyFloat)
    (hno : ∀ v ∈ values, _first_digit v = none)
    (hexp : ∀ d ∈ Finset.Icc 1 9, 0 ≤ expected_pct d) :
    (analyze_first_digits expected_pct values).total = 0 ∧
    (∀ d ∈ Finset.Icc 1 9, (analyze_first_digits expected_pct values).observed_pct d = 0) ∧
    (analyze_first_digits expected_pct values).chi_square = 0 ∧
    (analyze_first_digits expected_pct values).mad =
      (∑ d in Finset.Icc 1 9, (analyze_first_digits expected_pct values).expected_pct d) / 9 := by
  have hfm : values.filterMap _first_digit = [] := by
    simp only [List.filterMap_eq_nil_iff]
    exact hno
  rw [analyze_first_digits_closed]
  simp only [hfm, List.length_nil, List.count_nil]
  refine ⟨trivial, fun d hd => by norm_num, ?_, ?_⟩
  · refine Finset.sum_eq_zero fun d hd => ?_
    norm_num
  · congr 1
    refine Finset.sum_congr rfl fun d hd => ?_
    have h0 : (0 : ℚ) ≤ expected_pct d := hexp d hd
    norm_num
    exact h0

/-- Witness for C4 on the empty input with a constant expected table. -/
theorem analyze_empty_input_witness :
    (analyze_first_digits (fun _ => 1 / 100) []).total = 0 ∧
    (analyze_first_digits (fun _ => 1 / 100) []).chi_square = 0 ∧
    (analyze_first_digits (fun _ => 1 / 100) []).observed_pct 1 = 0 :=
  ⟨(analyze_empty_input (fun _ => 1 / 100) [] (fun v hv => absurd hv (List.not_mem_nil v))
      (fun d _ => by norm_num)).1,
   (analyze_empty_input (fun _ => 1 / 100) [] (fun v hv => absurd hv (List.not_mem_nil v))
      (fun d _ => by norm_num)).2.2.1,
   (analyze_empty_input (fun _ => 1 / 100) [] (fun v hv => absurd hv (List.not_mem_nil v))
      (fun d _ => by norm_num)).2.1 1 (by decide)⟩

/-- C5: `analyze_first_digits` is a pure function of the multiset of
inputs: permuting the input list leaves the entire result unchanged. -/
theorem analyze_perm_invariant (expected_pct : ℕ → ℚ) (values values' : List PyFloat)
    (hperm : values.Perm values') :
    analyze_first_digits expected_pct values = analyze_first_digits expected_pct values' := by
  have hp : (values.filterMap _first_digit).Perm (values'.filterMap _first_digit) :=
    hperm.filterMap _
  have hc : ∀ d, (values.filterMap _first_digit).count d =
      (values'.filterMap _first_digit).count d := fun d => hp.count_eq d
  have hl : (values.filterMap _first_digit).length =
      (values'.filterMap _first_digit).length := hp.length_eq
  rw [analyze_first_digits_closed, analyze_first_digits_closed]
  simp only [hc, hl]

/-- Witness for C5 on a two-element swap. -/
theorem analyze_perm_invariant_witness :
    analyze_first_digits (fun _ => 0) [PyFloat.finite 1, PyFloat.finite 2] =
      analyze_first_digits (fun _ => 0) [PyFloat.finite 2, PyFloat.finite 1] :=
  analyze_perm_invariant (fun _ => 0) _ _ (List.Perm.swap _ _ _)

/-!
## Lemmas about the extractor
-/

/-- C7 counterexample: the claim says a shared-string index that is not
a valid index into the table is always a fatal error, never silently
resolved.  The index `-1` is not a position of the two-element table
(`¬(0 ≤ -1 ∧ -1 < 2)`), yet `_cell_value` silently resolves it to the
last entry `"b"` by Python negative indexing instead of raising. -/
theorem cell_value_negative_index_cex :
    (¬(0 ≤ (-1 : ℤ) ∧ (-1 : ℤ) < 2)) ∧
    _cell_value ⟨"A2", some ("s"), some (some ("-1"))⟩ [("a"), ("b")] =
      Except.ok (some ("b")) := by
  refine ⟨by norm_num, ?_⟩
  with_unfolding_all decide

/-- C7 (amended): for a shared-string cell whose text parses to index
`i` over a table of length `n`: a position `0 ≤ i < n` returns exactly
the entry at `i`; an index with `n ≤ i` or `i < -n` raises `IndexError`;
and a negative `-n ≤ i < 0` is silently resolved to the entry at
position `n + i` (Python negative indexing), not an error. -/
theorem cell_value_index_semantics (strings : List String) (cell : Cell) (s : String) (i : ℤ)
    (ht : cell.t = some ("s")) (hv : cell.v = some (some s)) (hi : pyIntParse s = some i) :
    (0 ≤ i → i < (strings.length : ℤ) →
      _cell_value cell strings = Except.ok (some (strings.getD i.toNat ""))) ∧
    ((strings.length : ℤ) ≤ i ∨ i < -(strings.length : ℤ) →
      _cell_value cell strings = Except.error PyError.indexError) ∧
    (-(strings.length : ℤ) ≤ i → i < 0 →
      _cell_value cell strings = Except.ok (some (strings.getD (strings.length + i).toNat ""))) := by
  simp only [_cell_value, hv, ht, hi, reduceIte]
  refine ⟨fun h0 hn => ?_, fun hout => ?_, fun hneg h0 => ?_⟩
  · have hget : pyListGet strings i = some (strings.getD i.toNat "") := by
      rw [pyListGet, if_pos h0]
      have hlt : i.toNat < strings.length := by omega
      rw [List.getD_eq_get? , List.get?_eq_get hlt]  -- names to check
      rfl
    rw [hget]
  · have hget : pyListGet strings i = none := by
      rw [pyListGet]
      rcases hout with h | h
      · rw [if_pos (by omega)]
        have hle : strings.length ≤ i.toNat := by omega
        have h2 : strings.get? i.toNat = none := List.get?_eq_none.mpr hle
        rw [h2]
      · rw [if_neg (by omega), if_neg (by omega)]
    rw [hget]
  · have hget : pyListGet strings i = some (strings.getD (strings.length + i).toNat "") := by
      rw [pyListGet, if_neg (by omega), if_pos (by omega)]
      have hlt : ((strings.length : ℤ) + i).toNat < strings.length := by omega
      rw [List.getD_eq_get?, List.get?_eq_get hlt]
      rfl
    rw [hget]

/-- Witness for C7 (amended) at index 1 of a two-string table. -/
theorem cell_value_index_semantics_witness :
    _cell_value ⟨"B2", some ("s"), some (some ("1"))⟩ [("x"), ("y")] = Except.ok (some ("y")) :=
  (cell_value_index_semantics [("x"), ("y")] ⟨"B2", some ("s"), some (some ("1"))⟩ ("1") 1
      rfl rfl (by with_unfolding_all decide)).1 (by norm_num) (by norm_num)

/-- C8 counterexample: the claim says a first-row cell with no value
node still appears in the header map with header `""`.  On a sheet whose
single header cell `A1` has no value node the code `continue`s: the
header map comes back empty, recording nothing for column "A". -/
theorem column_headers_missing_value_cex :
    _column_headers ⟨[⟨some ("1"), [⟨("A1"), none, none⟩]⟩]⟩ [] = Except.ok [] ∧
    (("A"), ("")) ∉ ([] : List (String × String)) :=
  ⟨by with_unfolding_all decide, by decide⟩

/-- C8 (amended): a first-row cell that is not a shared-string reference
and has a value node records its raw text (empty string when the node
has no text) under its column identifier; a cell with no value node is
skipped entirely, leaving the header map unchanged, so such a cell puts
nothing in the map. -/
theorem column_headers_step_semantics (strings : List String)
    (headers : List (String × String)) (cell : Cell) :
    (cell.v = none → headerStep strings headers cell = Except.ok headers) ∧
    (∀ text, cell.v = some text → cell.t ≠ some ("s") →
      headerStep strings headers cell =
        Except.ok (dictSet headers (stripNonAlpha cell.r) (pyOrEmpty text))) := by
  constructor
  · intro h
    simp only [headerStep, h]
  · intro text hv ht
    simp only [headerStep, hv, if_neg ht]

/-- Witness for C8 (amended): a literal header cell records its text. -/
theorem column_headers_step_semantics_witness :
    headerStep [] [] ⟨("B1"), none, some (some ("Amount"))⟩ =
      Except.ok [(("B"), ("Amount"))] :=
  (column_headers_step_semantics [] [] ⟨("B1"), none, some (some ("Amount"))⟩).2
    (some ("Amount")) rfl (by decide)

/-- The C9 scenario worksheet: header "AbsoluteAmount" in column C (via
shared string 0), data rows holding 10, -20, 0, 30 in that column. -/
def wsC9 : Worksheet :=
  ⟨[⟨some ("1"), [⟨("C1"), some ("s"), some (some ("0"))⟩]⟩,
    ⟨some ("2"), [⟨("C2"), none, some (some ("10"))⟩]⟩,
    ⟨some ("3"), [⟨("C3"), none, some (some ("-20"))⟩]⟩,
    ⟨some ("4"), [⟨("C4"), none, some (some ("0"))⟩]⟩,
    ⟨some ("5"), [⟨("C5"), none, some (some ("30"))⟩]⟩]⟩

/-- C9 counterexample: the claim says the extracted sequence includes
`20` (the absolute value of the `-20` row).  The code performs no
absolute handling at extraction: the extracted sequence is
`[10, -20, 30]`, which does not contain `20`. -/
theorem read_amounts_absolute_cex :
    _read_amounts [("AbsoluteAmount")] wsC9 = Except.ok [10, -20, 30] ∧
    (20 : ℚ) ∉ ([10, -20, 30] : List ℚ) :=
  ⟨by with_unfolding_all decide, by with_unfolding_all decide⟩

/-- C9 (amended): on the scenario worksheet the extracted sequence is
exactly `[10, -20, 30]` — the zero row is excluded, the `-20` row
contributes the raw signed value `-20`, and the absolute value enters
only later through the leading-digit classifier
(`_first_digit(-20) = 2`). -/
theorem read_amounts_concrete_scenario :
    _read_amounts [("AbsoluteAmount")] wsC9 = Except.ok [10, -20, 30] ∧
    _first_digit (PyFloat.finite (-20)) = some 2 ∧
    (0 : ℚ) ∉ ([10, -20, 30] : List ℚ) :=
  ⟨by with_unfolding_all decide, by with_unfolding_all decide, by with_unfolding_all decide⟩

/-- `tryColumn` when the cell is present with a non-empty parseable
value. -/
theorem tryColumn_ok (strings : List String) (row : Row) (c : String) (cell : Cell)
    (s : String) (q : ℚ)
    (h1 : cellsLookup row.cells (c ++ pyStr row.r) = some cell)
    (h2 : _cell_value cell strings = Except.ok (some s)) (h3 : s ≠ (""))
    (h4 : pyFloatParse s = some q) :
    tryColumn strings row c = Except.ok (some q) := by
  simp only [tryColumn, h1, h2, if_neg h3, h4]

/-- `attemptColumn` on a non-empty column id is `tryColumn`. -/
theorem attemptColumn_some (strings : List String) (row : Row) (c : String) (hc : c ≠ ("")) :
    attemptColumn strings row (some c) = tryColumn strings row c := by
  have ht : optTruthy (some c) = true := by
    have hf : c.isEmpty = false := by
      rw [Bool.eq_false_iff]
      intro h
      exact hc ((String.isEmpty_iff c).mp h)
    simp [optTruthy, hf]
  rw [attemptColumn, if_pos ht]
  rfl

/-- C1: the Row Value selection policy of `_read_amounts`, for resolved
column ids that are genuine column letters (non-empty): a present,
non-empty cell of the "AbsoluteAmount" column is used; otherwise a
present, non-empty cell of the "Amount" column is used; a row yielding
neither contributes nothing; and a resolved amount of exactly zero is
discarded from the output while any other amount is appended. -/
theorem read_amounts_row_policy (strings : List String)
    (cols : Option String × Option String) (row : Row) (values : List ℚ)
    (hA : cols.1 ≠ some ("")) (hM : cols.2 ≠ some ("")) :
    (∀ c cell s q, cols.1 = some c →
      cellsLookup row.cells (c ++ pyStr row.r) = some cell →
      _cell_value cell strings = Except.ok (some s) → s ≠ ("") → pyFloatParse s = some q →
      rowAmount strings cols row = Except.ok (some q)) ∧
    (∀ c cell s q, attemptColumn strings row cols.1 = Except.ok none → cols.2 = some c →
      cellsLookup row.cells (c ++ pyStr row.r) = some cell →
      _cell_value cell strings = Except.ok (some s) → s ≠ ("") → pyFloatParse s = some q →
      rowAmount strings cols row = Except.ok (some q)) ∧
    (attemptColumn strings row cols.1 = Except.ok none →
      attemptColumn strings row cols.2 = Except.ok none →
      rowAmount strings cols row = Except.ok none) ∧
    (∀ q, rowAmount strings cols row = Except.ok (some q) → q ≠ 0 →
      readRowStep strings cols values row = Except.ok (values ++ [q])) ∧
    (rowAmount strings cols row = Except.ok (some 0) →
      readRowStep strings cols values row = Except.ok values) ∧
    (rowAmount strings cols row = Except.ok none →
      readRowStep strings cols values row = Except.ok values) := by
  refine ⟨?_, ?_, ?_, ?_, ?_, ?_⟩
  · intro c cell s q hcol hcl hcv hs hp
    have hc : c ≠ ("") := fun h => hA (by rw [hcol, h])
    have htry := tryColumn_ok strings row c cell s q hcl hcv hs hp
    rw [rowAmount, hcol, attemptColumn_some strings row c hc, htry]
  · intro c cell s q hnone hcol hcl hcv hs hp
    have hc : c ≠ ("") := fun h => hM (by rw [hcol, h])
    have htry := tryColumn_ok strings row c cell s q hcl hcv hs hp
    rw [rowAmount, hnone, hcol, attemptColumn_some strings row c hc, htry]
  · intro h1 h2
    rw [rowAmount, h1, h2]
  · intro q hrow hq
    rw [readRowStep, hrow]
    simp only [appendAmount, if_neg hq]
  · intro hrow
    rw [readRowStep, hrow]
    simp [appendAmount]
  · intro hrow
    rw [readRowStep, hrow]
    rfl

/-- Witness for C1: a present non-empty "AbsoluteAmount" cell is used
and its non-zero amount appended. -/
theorem read_amounts_row_policy_witness :
    rowAmount [] (some ("C"), none) ⟨some ("2"), [⟨("C2"), none, some (some ("10"))⟩]⟩ =
      Except.ok (some 10) :=
  (read_amounts_row_policy [] (some ("C"), none)
      ⟨some ("2"), [⟨("C2"), none, some (some ("10"))⟩]⟩ [] (by decide) (by decide)).1
    ("C") ⟨("C2"), none, some (some ("10"))⟩ ("10") 10 rfl
    (by with_unfolding_all decide) (by with_unfolding_all decide) (by decide)
    (by with_unfolding_all decide)

/-!
## The "no amount column" error (C6)
-/

/-- The error shapes the header and row loops can produce. -/
def benignError (e : PyError) : Prop :=
  e = PyError.typeError ∨ e = PyError.indexError ∨
  (∃ s, e = PyError.valueError (("invalid literal for int() with base 10: ") ++ s)) ∨
  (∃ s, e = PyError.valueError (("could not convert string to float: ") ++ s))

theorem int_msg_ne_noamount (s : String) :
    (("invalid literal for int() with base 10: ") ++ s) ≠
      ("No amount column found in spreadsheet") := by
  obtain ⟨l⟩ := s
  intro h
  have h2 := congrArg (fun t : String => t.data.take 1) h
  have h3 : (['i'] : List Char) = ['N'] := h2
  exact absurd h3 (by decide)

theorem float_msg_ne_noamount (s : String) :
    (("could not convert string to float: ") ++ s) ≠
      ("No amount column found in spreadsheet") := by
  obtain ⟨l⟩ := s
  intro h
  have h2 := congrArg (fun t : String => t.data.take 1) h
  have h3 : (['c'] : List Char) = ['N'] := h2
  exact absurd h3 (by decide)

theorem benign_ne_noamount (e : PyError) (h : benignError e) :
    e ≠ PyError.valueError ("No amount column found in spreadsheet") := by
  rcases h with h | h | ⟨s, h⟩ | ⟨s, h⟩ <;> subst h <;> intro h2
  · cases h2
  · cases h2
  · exact int_msg_ne_noamount s (by injection h2)
  · exact float_msg_ne_noamount s (by injection h2)

theorem cell_value_error_benign (cell : Cell) (strings : List String) (e : PyError)
    (h : _cell_value cell strings = Except.error e) : benignError e := by
  cases hv : cell.v with
  | none =>
    simp only [_cell_value, hv] at h
    cases h
  | some text =>
    by_cases ht : cell.t = some ("s")
    · cases text with
      | none =>
        simp only [_cell_value, hv, ht, reduceIte] at h
        injection h with h2
        exact Or.inl h2.symm
      | some s =>
        cases hp : pyIntParse s with
        | none =>
          simp only [_cell_value, hv, ht, reduceIte, hp] at h
          injection h with h2
          exact Or.inr (Or.inr (Or.inl ⟨s, h2.symm⟩))
        | some i =>
          cases hg : pyListGet strings i with
          | none =>
            simp only [_cell_value, hv, ht, reduceIte, hp, hg] at h
            injection h with h2
            exact Or.inr (Or.inl h2.symm)
          | some str =>
            simp only [_cell_value, hv, ht, reduceIte, hp, hg] at h
            cases h
    · simp only [_cell_value, hv] at h
      rw [if_neg ht] at h
      cases h

theorem headerStep_error_benign (strings : List String) (headers : List (String × String))
    (cell : Cell) (e : PyError)
    (h : headerStep strings headers cell = Except.error e) : benignError e := by
  cases hv : cell.v with
  | none =>
    simp only [headerStep, hv] at h
    cases h
  | some text =>
    by_cases ht : cell.t = some ("s")
    · cases text with
      | none =>
        simp only [headerStep, hv, ht, reduceIte] at h
        injection h with h2
        exact Or.inl h2.symm
      | some s =>
        cases hp : pyIntParse s with
        | none =>
          simp only [headerStep, hv, ht, reduceIte, hp] at h
          injection h with h2
          exact Or.inr (Or.inr (Or.inl ⟨s, h2.symm⟩))
        | some i =>
          cases hg : pyListGet strings i with
          | none =>
            simp only [headerStep, hv, ht, reduceIte, hp, hg] at h
            injection h with h2
            exact Or.inr (Or.inl h2.symm)
          | some str =>
            simp only [headerStep, hv, ht, reduceIte, hp, hg] at h
            cases h
    · simp only [headerStep, hv] at h
      rw [if_neg ht] at h
      cases h

theorem foldlM_error {α β : Type} (f : β → α → Except PyError β) (l : List α) :
    ∀ (init : β) (e : PyError), l.foldlM f init = Except.error e →
      ∃ b a, a ∈ l ∧ f b a = Except.error e := by
  induction l with
  | nil =>
    intro init e h
    rw [List.foldlM_nil] at h
    cases h
  | cons x t ih =>
    intro init e h
    rw [List.foldlM_cons] at h
    cases hf : f init x with
    | error e2 =>
      rw [hf] at h
      have h2 : Except.error e2 = (Except.error e : Except PyError β) := h
      injection h2 with h3
      exact ⟨init, x, List.mem_cons_self x t, by rw [hf, h3]⟩
    | ok b =>
      rw [hf] at h
      have h2 : t.foldlM f b = Except.error e := h
      obtain ⟨b2, a, ha, hfa⟩ := ih b e h2
      exact ⟨b2, a, List.mem_cons_of_mem x ha, hfa⟩

theorem column_headers_error_benign (sheet : Worksheet) (strings : List String) (e : PyError)
    (h : _column_headers sheet strings = Except.error e) : benignError e := by
  cases hr : sheet.rows with
  | nil =>
    rw [_column_headers, hr] at h
    cases h
  | cons row1 rest =>
    rw [_column_headers, hr] at h
    have h2 : row1.cells.foldlM (headerStep strings) [] = Except.error e := h
    obtain ⟨b, a, _, hfa⟩ := foldlM_error (headerStep strings) row1.cells [] e h2
    exact headerStep_error_benign strings b a e hfa

theorem tryColumn_error_benign (strings : List String) (row : Row) (c : String) (e : PyError)
    (h : tryColumn strings row c = Except.error e) : benignError e := by
  cases hl : cellsLookup row.cells (c ++ pyStr row.r) with
  | none =>
    simp only [tryColumn, hl] at h
    cases h
  | some cell =>
    cases hcv : _cell_value cell strings with
    | error e2 =>
      simp only [tryColumn, hl, hcv] at h
      injection h with h2
      rw [← h2]
      exact cell_value_error_benign cell strings e2 hcv
    | ok raw =>
      cases raw with
      | none =>
        simp only [tryColumn, hl, hcv] at h
        cases h
      | some s =>
        by_cases hs : s = ("")
        · simp only [tryColumn, hl, hcv, hs, reduceIte] at h
          cases h
        · cases hp : pyFloatParse s with
          | none =>
            simp only [tryColumn, hl, hcv, if_neg hs, hp] at h
            injection h with h2
            exact Or.inr (Or.inr (Or.inr ⟨s, h2.symm⟩))
          | some q =>
            simp only [tryColumn, hl, hcv, if_neg hs, hp] at h
            cases h

theorem attemptColumn_error_benign (strings : List String) (row : Row) (c : Option String)
    (e : PyError) (h : attemptColumn strings row c = Except.error e) : benignError e := by
  by_cases ht : optTruthy c = true
  · rw [attemptColumn, if_pos ht] at h
    exact tryColumn_error_benign strings row (c.getD "") e h
  · rw [attemptColumn, if_neg ht] at h
    cases h

theorem rowAmount_error_benign (strings : List String) (cols : Option String × Option String)
    (row : Row) (e : PyError) (h : rowAmount strings cols row = Except.error e) :
    benignError e := by
  cases h1 : attemptColumn strings row cols.1 with
  | error e2 =>
    rw [rowAmount, h1] at h
    injection h with h2
    rw [← h2]
    exact attemptColumn_error_benign strings row cols.1 e2 h1
  | ok a =>
    cases a with
    | none =>
      rw [rowAmount, h1] at h
      exact attemptColumn_error_benign strings row cols.2 e h
    | some q =>
      rw [rowAmount, h1] at h
      cases h

theorem readRowStep_error_benign (strings : List String)
    (cols : Option String × Option String) (values : List ℚ) (row : Row) (e : PyError)
    (h : readRowStep strings cols values row = Except.error e) : benignError e := by
  cases hr : rowAmount strings cols row with
  | error e2 =>
    rw [readRowStep, hr] at h
    injection h with h2
    rw [← h2]
    exact rowAmount_error_benign strings cols row e2 hr
  | ok a =>
    rw [readRowStep, hr] at h
    cases h

theorem foldl_amountColStep_fst (headers : List (String × String))
    (acc : Option String × Option String) :
    (headers.foldl amountColStep acc).1 = none ↔
      acc.1 = none ∧ ∀ p ∈ headers, p.2 ≠ ("AbsoluteAmount") := by
  induction headers generalizing acc with
  | nil => simp
  | cons p t ih =>
    rw [List.foldl_cons]
    by_cases h1 : p.2 = ("AbsoluteAmount")
    · rw [amountColStep, if_pos h1, ih]
      simp [h1]
    · by_cases h2 : p.2 = ("Amount")
      · rw [amountColStep, if_neg h1, if_pos h2, ih]
        simp [h1]
      · rw [amountColStep, if_neg h1, if_neg h2, ih]
        simp [h1]

theorem foldl_amountColStep_snd (headers : List (String × String))
    (acc : Option String × Option String) :
    (headers.foldl amountColStep acc).2 = none ↔
      acc.2 = none ∧ ∀ p ∈ headers, p.2 ≠ ("Amount") := by
  induction headers generalizing acc with
  | nil => simp
  | cons p t ih =>
    rw [List.foldl_cons]
    by_cases h1 : p.2 = ("AbsoluteAmount")
    · rw [amountColStep, if_pos h1, ih]
      have h2 : p.2 ≠ ("Amount") := by rw [h1]; decide
      simp [h2]
    · by_cases h2 : p.2 = ("Amount")
      · rw [amountColStep, if_neg h1, if_pos h2, ih]
        simp [h2]
      · rw [amountColStep, if_neg h1, if_neg h2, ih]
        simp [h2]

theorem findAmountColumns_none_iff (headers : List (String × String)) :
    findAmountColumns headers = (none, none) ↔
      ∀ p ∈ headers, p.2 ≠ ("AbsoluteAmount") ∧ p.2 ≠ ("Amount") := by
  rw [findAmountColumns]
  constructor
  · intro h p hp
    have h1 := (foldl_amountColStep_fst headers (none, none)).mp (by rw [h])
    have h2 := (foldl_amountColStep_snd headers (none, none)).mp (by rw [h])
    exact ⟨h1.2 p hp, h2.2 p hp⟩
  · intro h
    have h1 : (headers.foldl amountColStep (none, none)).1 = none :=
      (foldl_amountColStep_fst headers (none, none)).mpr ⟨rfl, fun p hp => (h p hp).1⟩
    have h2 : (headers.foldl amountColStep (none, none)).2 = none :=
      (foldl_amountColStep_snd headers (none, none)).mpr ⟨rfl, fun p hp => (h p hp).2⟩
    exact Prod.ext h1 h2

/-- C6: extraction fails with the "no amount column" `ValueError`
(message "No amount column found in spreadsheet", a distinct error value
no other failure of header or row processing can produce) exactly when
the resolved header map contains neither an "AbsoluteAmount" header nor
an "Amount" header. -/
theorem no_amount_column_iff (strings : List String) (sheet : Worksheet) :
    _read_amounts strings sheet =
        Except.error (PyError.valueError ("No amount column found in spreadsheet")) ↔
      ∃ headers, _column_headers sheet strings = Except.ok headers ∧
        ∀ p ∈ headers, p.2 ≠ ("AbsoluteAmount") ∧ p.2 ≠ ("Amount") := by
  constructor
  · intro h
    cases hh : _column_headers sheet strings with
    | error e =>
      rw [_read_amounts, hh] at h
      have h2 : (Except.error e : Except PyError (List ℚ)) =
          Except.error (PyError.valueError ("No amount column found in spreadsheet")) := h
      injection h2 with h3
      exact absurd h3 (benign_ne_noamount e (column_headers_error_benign sheet strings e hh))
    | ok headers =>
      rw [_read_amounts, hh] at h
      by_cases hc : (findAmountColumns headers).1 = none ∧ (findAmountColumns headers).2 = none
      · exact ⟨headers, rfl,
          (findAmountColumns_none_iff headers).mp (Prod.ext hc.1 hc.2)⟩
      · have h2 : (sheet.rows.drop 1).foldlM (readRowStep strings (findAmountColumns headers)) [] =
            Except.error (PyError.valueError ("No amount column found in spreadsheet")) := by
          have h3 : (if (findAmountColumns headers).1 = none ∧
              (findAmountColumns headers).2 = none then
                Except.error (PyError.valueError ("No amount column found in spreadsheet"))
              else
                (sheet.rows.drop 1).foldlM
                  (readRowStep strings (findAmountColumns headers)) []) =
              Except.error (PyError.valueError ("No amount column found in spreadsheet")) := h
          rwa [if_neg hc] at h3
        obtain ⟨b, a, _, hfa⟩ := foldlM_error _ _ _ _ h2
        exact absurd rfl (benign_ne_noamount _
          (readRowStep_error_benign strings (findAmountColumns headers) b a _ hfa))
  · rintro ⟨headers, hh, hnone⟩
    have hc : findAmountColumns headers = (none, none) :=
      (findAmountColumns_none_iff headers).mpr hnone
    rw [_read_amounts, hh]
    have hcond : (findAmountColumns headers).1 = none ∧ (findAmountColumns headers).2 = none := by
      rw [hc]
      exact ⟨rfl, rfl⟩
    show (if (findAmountColumns headers).1 = none ∧ (findAmountColumns headers).2 = none then
        Except.error (PyError.valueError ("No amount column found in spreadsheet"))
      else (sheet.rows.drop 1).foldlM (readRowStep strings (findAmountColumns headers)) []) =
      Except.error (PyError.valueError ("No amount column found in spreadsheet"))
    rw [if_pos hcond]

/-- Witness for C6 on a one-cell sheet whose only header is "Other". -/
theorem no_amount_column_iff_witness :
    _read_amounts [] ⟨[⟨some ("1"), [⟨("A1"), none, some (some ("Other"))⟩]⟩]⟩ =
      Except.error (PyError.valueError ("No amount column found in spreadsheet")) :=
  (no_amount_column_iff [] ⟨[⟨some ("1"), [⟨("A1"), none, some (some ("Other"))⟩]⟩]⟩).mpr
    ⟨[(("A"), ("Other"))], by with_unfolding_all decide, by decide⟩
